import Mathlib

/-!
Verification development for the EGMS L3 data tool (`egms_L3_web.py`).

The Python program has two cores: a tile-grid batch downloader and a CSV
enrichment pipeline.  External effects (HTTP, zip decoding, float parsing,
the projection library, the geocoding service) are modelled as explicit
oracle parameters; file-system writes are modelled as explicit result
fields.  Exceptions in the Python code are modelled with `Except` oracles:
a `try`/`except` block becomes a `match` on the oracle's result, and code
whose exceptions would propagate to the caller is modelled by the
corresponding abort flag in the result.
-/

namespace EGMS

/-- Substring test: `strContainsAux ns cs` is true when the character list
`ns` occurs contiguously inside `cs` (Python's `in` on strings). -/
def charsStartWith : List Char → List Char → Bool
  | [], _ => true
  | _ :: _, [] => false
  | a :: as, b :: bs => a = b && charsStartWith as bs

def strContainsAux : List Char → List Char → Bool
  | ns, [] => ns.isEmpty
  | ns, c :: cs => charsStartWith ns (c :: cs) || strContainsAux ns cs

/-- Python `needle in hay` for strings. -/
def strContains (needle hay : String) : Bool :=
  strContainsAux needle.data hay.data

/-- Python `str.lower()` (the column names involved are ASCII). -/
def strToLower (s : String) : String := ⟨s.data.map Char.toLower⟩

/-- Python `str.endswith(x)`. -/
def strEndsWith (s x : String) : Bool := x.data.isSuffixOf s.data

/-! ## Archive fetcher (`download_tile`, lines 64-94) -/

/-- The tile code `E{e}N{n}` built at line 66. -/
def tileCode (e n : Int) : String := s!"E{e}N{n}"

/-- `EGMS_L3_E{e}N{n}_100km_{d}_{year}_1`: the filename fragment built at
line 67 of the source from tile code, displacement and year range. -/
def expectedFragment (e n : Int) (d year : String) : String :=
  s!"EGMS_L3_{tileCode e n}_100km_{d}_{year}_1"

/-- The entry-selection test at line 84: `name.endswith(".csv") and
filename fragment in name`. -/
def entryMatches (frag nm : String) : Bool :=
  strEndsWith nm ".csv" && strContains frag nm

/-- Result of one `download_tile` call: the boolean the function returns,
the final `download_status` message, and the list of files extracted under
the download directory. -/
structure TileResult where
  ok : Bool
  status : String
  written : List String
deriving DecidableEq, Repr

/-- Network oracle for one tile fetch: `Except.error msg` models a raised
network-level exception (timeout, DNS, reset) from the HTTP GET;
`Except.ok (code, zipR)` models a response with status `code`, where
`zipR` is `Except.error` if opening the in-memory zip raises and
`Except.ok names` gives the archive's entry-name list. -/
def NetOracle : Type := Except String (Nat × Except String (List String))

/-- Model of `download_tile` (lines 64-94).  The credential `id` only
parametrises the request URL and is absorbed into the oracle.  The single
`except` at line 92 catches every exception from the `try` body, so the
model is a total function: every oracle outcome maps to a `TileResult`. -/
def download_tile (e n : Int) (d year : String) (net : NetOracle) : TileResult :=
  let tile_code := tileCode e n
  let frag := expectedFragment e n d year
  match net with
  | .error msg => ⟨false, s!"Error downloading {tile_code} {d}: {msg}", []⟩
  | .ok (code, zipR) =>
    if code ≠ 200 then
      ⟨false, s!"Failed to download {tile_code} {d}", []⟩
    else
      match zipR with
      | .error msg => ⟨false, s!"Error downloading {tile_code} {d}: {msg}", []⟩
      | .ok names =>
        match names.find? (fun nm => entryMatches frag nm) with
        | some nm => ⟨true, s!"Extracted {nm}", [nm]⟩
        | none =>
          ⟨false, s!"No matching CSV found in the downloaded zip for {tile_code} {d}", []⟩

/-! ## Tile grid orchestrator (`main`, batch branch, lines 305-330) -/

/-- Python `range(lo, hi + 1)` over integers. -/
def intRange (lo hi : Int) : List Int :=
  (List.range (hi + 1 - lo).toNat).map (fun k : Nat => lo + (k : Int))

/-- The displacement list built at lines 306-309: `["E", "U"]` for
"Both", else the singleton of the chosen type. -/
def displacementsOf (choice : String) : List String :=
  if choice = "Both" then ["E", "U"] else [choice]

/-- The task enumeration of the batch loop (lines 318-320): `e` outermost
from `min_e` to `max_e`, then `n` from `min_n` to `max_n`, then each
displacement. -/
def batchTasks (choice : String) (min_e max_e min_n max_n : Int) :
    List (Int × Int × String) :=
  (intRange min_e max_e).flatMap fun e =>
    (intRange min_n max_n).flatMap fun n =>
      (displacementsOf choice).map fun d => (e, n, d)

/-- The batch loop body applied to every enumerated task: each task is
passed to `download_tile` exactly once, with its own oracle outcome. -/
def batchOutcomes (choice : String) (min_e max_e min_n max_n : Int)
    (year : String) (net : Int × Int × String → NetOracle) :
    List ((Int × Int × String) × TileResult) :=
  (batchTasks choice min_e max_e min_n max_n).map fun t =>
    (t, download_tile t.1 t.2.1 t.2.2 year (net t))

/-- The sequence of progress fractions the batch loop emits: one
`task_count / total_tasks` per task (line 323) followed by the
unconditional final `1.0` (line 330). -/
def batchProgressList (total : Nat) : List ℚ :=
  (List.range total).map (fun k : Nat => ((k : ℚ) + 1) / (total : ℚ)) ++ [1]

/-! ## Coordinate conversion and location resolver (lines 48-114) -/

/-- Model of `convert_coordinates` (lines 48-62).  `pf` models Python
`float(...)` (`none` = raises on a non-numeric string); `tr` models
`transformer.transform` returning `(lon, lat)` (`none` = raises, or the
transformer is unavailable).  Any exception in the `try` body yields
`(None, None)` at line 62. -/
def convert_coordinates {γ β : Type} (pf : String → Option γ)
    (tr : γ → γ → Option (β × β)) (easting northing : String) :
    Option β × Option β :=
  match pf easting, pf northing with
  | some x, some y =>
    match tr x y with
    | some (lon, lat) => (some lat, some lon)
    | none => (none, none)
  | _, _ => (none, none)

/-- One reverse-geocoding response: the `address` field of the raw
response (empty list when absent) and the full formatted address
`location.address`. -/
structure GeoLoc where
  address : List (String × String)
  display : String
deriving DecidableEq, Repr

/-- Python `dict.get(key, dflt)` on the association list. -/
def dictGet (k : String) (dflt : String) (m : List (String × String)) : String :=
  match m.lookup k with
  | some v => v
  | none => dflt

/-- Model of `get_location_name` (lines 96-114).  The oracle `geo` models
`geolocator.reverse`: `Except.error` = the call raises, `Except.ok none` =
it returns no location, `Except.ok (some loc)` = a location.  The second
component counts how many network (geocoding) calls were made.  The
`except` at line 112 makes the model total. -/
def get_location_name {β : Type} (geo : β → β → Except String (Option GeoLoc))
    (latitude longitude : Option β) : String × Nat :=
  match latitude, longitude with
  | some la, some lo =>
    (match geo la lo with
     | .error _ => ("Geocoding error", 1)
     | .ok none => ("Unknown location", 1)
     | .ok (some loc) =>
       let address := loc.address
       let city := dictGet "city" (dictGet "town" (dictGet "village" "" address) address) address
       let country := dictGet "country" "" address
       if city ≠ "" && country ≠ "" then (s!"{city}, {country}", 1)
       else (loc.display, 1))
  | _, _ => ("Unknown location", 0)

/-! ## CSV enrichment pipeline (`enrich_dataset_with_locations`, lines 127-209) -/

/-- The fixed output header written at line 168. -/
def NEW_HEADER : List String := ["point_id", "easting", "northing", "location"]

def NAMES_DATASETS_DIR : String := "Point_locations"

/-- Output path derivation of line 137-138 from the input base name. -/
def outputPathOf (base : String) : String :=
  NAMES_DATASETS_DIR ++ "/" ++ base ++ "_locations.csv"

/-- Column lookup of lines 157-159:
`header_lower.index(c) if c in header_lower else None`. -/
def findCol (name : String) (hl : List String) : Option Nat :=
  if hl.contains name then some (hl.indexOf name) else none

/-- A data row can be indexed at all three resolved column positions
(a shorter row makes `row[idx]` raise `IndexError`). -/
def rowSafe (pi ei ni : Nat) (row : List String) : Bool :=
  ei < row.length && ni < row.length && pi < row.length

/-- The output row written at lines 191-196 for one input row:
`[row[pid_idx], row[easting_idx], row[northing_idx], location]` where
`location` comes from the transform + geocoding chain of lines 184-187. -/
def outRowOf {γ β : Type} (pi ei ni : Nat) (pf : String → Option γ)
    (tr : γ → γ → Option (β × β)) (geo : β → β → Except String (Option GeoLoc))
    (row : List String) : List String :=
  let ll := convert_coordinates pf tr (row.getD ei "") (row.getD ni "")
  let location := (get_location_name geo ll.1 ll.2).1
  [row.getD pi "", row.getD ei "", row.getD ni "", location]

/-- The row loop of lines 179-200: rows are processed in order; the first
row too short for one of the three column indices raises `IndexError`,
which aborts the loop (second component `true`); rows written so far stay
written. -/
def processRows {γ β : Type} (pi ei ni : Nat) (pf : String → Option γ)
    (tr : γ → γ → Option (β × β)) (geo : β → β → Except String (Option GeoLoc)) :
    List (List String) → List (List String) × Bool
  | [] => ([], false)
  | row :: rest =>
    if rowSafe pi ei ni row then
      let res := processRows pi ei ni pf tr geo rest
      (outRowOf pi ei ni pf tr geo row :: res.1, res.2)
    else ([], true)

/-- Observable result of one enrichment run: the value returned to the
caller (`some` output path, or `none` on any error), the content of the
output file (`none` = the file was never created, `some rows` = it exists
holding exactly `rows`), and the error message shown, if any. -/
structure EnrichResult where
  returned : Option String
  outFile : Option (List (List String))
  errMsg : Option String
deriving DecidableEq, Repr

/-- Model of `enrich_dataset_with_locations` (lines 127-209) on an input
file that exists, given as its parsed CSV rows.  The output file is opened
for writing — hence created, empty — at line 146, before the header is
read and validated; the header row is only written at line 168 after
validation.  An empty input makes `next(reader)` raise `StopIteration`,
caught by the catch-all at line 205; a missing required column returns at
line 163; a too-short data row raises `IndexError` inside the loop, also
caught at line 205 (returning `None`, with the rows already written left
in the file). -/
def enrich_dataset_with_locations {γ β : Type} (base : String)
    (pf : String → Option γ) (tr : γ → γ → Option (β × β))
    (geo : β → β → Except String (Option GeoLoc))
    (csv : List (List String)) : EnrichResult :=
  match csv with
  | [] => ⟨none, some [], some "Error processing CSV: StopIteration"⟩
  | header :: dataRows =>
    let hl := header.map strToLower
    match findCol "pid" hl, findCol "easting" hl, findCol "northing" hl with
    | some pi, some ei, some ni =>
      let res := processRows pi ei ni pf tr geo dataRows
      if res.2 then
        ⟨none, some (NEW_HEADER :: res.1),
          some "Error processing CSV: list index out of range"⟩
      else
        ⟨some (outputPathOf base), some (NEW_HEADER :: res.1), none⟩
    | _, _, _ =>
      ⟨none, some [],
        some ("Required columns not found. Available columns: " ++ toString header)⟩

/-! ## Event traces and rate limiting (lines 186-188, 326-328) -/

/-- An observable event of a batch: an external call to a named service,
or a `sleep` of a rational number of seconds. -/
inductive Ev where
  | call : String → Ev
  | sleep : ℚ → Ev
deriving DecidableEq, Repr

/-- `DELAY = 3.0`, the configured pause after each archive download
(line 23, used at lines 271 and 328). -/
def DELAY : ℚ := 3

/-- The `sleep(0.5)` after each geocoding step (line 188). -/
def GEOCODE_DELAY : ℚ := 1 / 2

/-- Event trace of the batch download loop: for each task, one call to the
archive service followed by `sleep(DELAY)` (lines 326-328). -/
def batchEvents {α : Type} (tasks : List α) : List Ev :=
  tasks.flatMap fun _ => [Ev.call "download", Ev.sleep DELAY]

/-- Event trace of the enrichment row loop: for each row, the geocoding
call made inside `get_location_name` — zero or one, exactly the model's
call count — followed by the unconditional `sleep(0.5)` of line 188. -/
def enrichEvents {γ β : Type} (_pi ei ni : Nat) (pf : String → Option γ)
    (tr : γ → γ → Option (β × β)) (geo : β → β → Except String (Option GeoLoc))
    (rows : List (List String)) : List Ev :=
  rows.flatMap fun row =>
    (List.replicate
      (get_location_name geo
        (convert_coordinates pf tr (row.getD ei "") (row.getD ni "")).1
        (convert_coordinates pf tr (row.getD ei "") (row.getD ni "")).2).2
      (Ev.call "geocode")) ++ [Ev.sleep GEOCODE_DELAY]

/-- Total seconds slept in a trace: a lower bound on the wall time the
trace takes, since `sleep(d)` blocks for at least `d` seconds and every
other operation takes nonnegative time. -/
def sleepSum : List Ev → ℚ
  | [] => 0
  | Ev.call _ :: rest => sleepSum rest
  | Ev.sleep d :: rest => d + sleepSum rest

/-- `callTimes s evs t`: the accumulated-sleep timestamps (starting from
`t`) at which the trace `evs` issues each call to service `s`. -/
def callTimes (s : String) : List Ev → ℚ → List ℚ
  | [], _ => []
  | Ev.call s' :: rest, t =>
    if s' = s then t :: callTimes s rest t else callTimes s rest t
  | Ev.sleep d :: rest, t => callTimes s rest (t + d)

end EGMS

namespace EGMS

/-! ## Concrete oracles for closed evaluations -/

/-- A float-parsing oracle for closed tests: `"z"` is the non-numeric
string (parsing raises), everything else parses. -/
def pfW : String → Option Int := fun s => if s = "z" then none else some 7

def trW : Int → Int → Option (Int × Int) := fun x y => some (x, y)

def geoW : Int → Int → Except String (Option GeoLoc) := fun _ _ => .ok none

def geoErrW : Int → Int → Except String (Option GeoLoc) := fun _ _ => .error "timeout"

/-! ## Helper lemmas on the enrichment pipeline -/

theorem convert_coordinates_of_parse_fail {γ β : Type} (pf : String → Option γ)
    (tr : γ → γ → Option (β × β)) (easting northing : String)
    (h : pf easting = none ∨ pf northing = none) :
    convert_coordinates pf tr easting northing = (none, none) := by
  rcases hpe : pf easting with _ | x <;> rcases hpn : pf northing with _ | y <;>
    simp_all [convert_coordinates]

theorem processRows_of_all_safe {γ β : Type} (pi ei ni : Nat) (pf : String → Option γ)
    (tr : γ → γ → Option (β × β)) (geo : β → β → Except String (Option GeoLoc)) :
    ∀ rows : List (List String), (∀ r ∈ rows, rowSafe pi ei ni r = true) →
      processRows pi ei ni pf tr geo rows =
        (rows.map (outRowOf pi ei ni pf tr geo), false) := by
  intro rows h
  induction rows with
  | nil => rfl
  | cons r rest ih =>
    have hr : rowSafe pi ei ni r = true := h r (List.mem_cons_self r rest)
    have hrest := ih (fun x hx => h x (List.mem_cons_of_mem r hx))
    simp [processRows, hr, hrest]

theorem processRows_of_bad_row {γ β : Type} (pi ei ni : Nat) (pf : String → Option γ)
    (tr : γ → γ → Option (β × β)) (geo : β → β → Except String (Option GeoLoc))
    (bad : List String) (rest : List (List String)) (hbad : rowSafe pi ei ni bad = false) :
    ∀ pre : List (List String), (∀ r ∈ pre, rowSafe pi ei ni r = true) →
      processRows pi ei ni pf tr geo (pre ++ bad :: rest) =
        (pre.map (outRowOf pi ei ni pf tr geo), true) := by
  intro pre h
  induction pre with
  | nil => simp [processRows, hbad]
  | cons r pre' ih =>
    have hr : rowSafe pi ei ni r = true := h r (List.mem_cons_self r pre')
    have hpre := ih (fun x hx => h x (List.mem_cons_of_mem r hx))
    simp [processRows, hr, hpre]

end EGMS

namespace EGMS

/-! ## Claims C1, C2, C8, C10: the enrichment pipeline -/

/-- C1 (counterexample): on an input whose header lacks the required
columns (here `["x", "y"]`), the code does NOT leave the output directory
without an output file: the output file is created (empty) by the
`open(output_file, "w")` at line 146, which runs before the header is
validated.  The claim "produces no output file in the output directory"
is therefore false. -/
theorem c1_counterexample :
    (enrich_dataset_with_locations "t" pfW trW geoW
      [["x", "y"], ["1", "2"]]).outFile ≠ none := by
  decide

/-- C1 (amended): for every input file whose header lacks any of the
required columns `pid`/`easting`/`northing` (case-insensitively), the
enrichment aborts with a descriptive error naming the columns found,
returns nothing, and writes no content (no header and no rows) to the
output file — but the output file itself is created, empty, in the output
directory, because it is opened for writing before the header check. -/
theorem c1_missing_columns_abort {γ β : Type} (base : String)
    (pf : String → Option γ) (tr : γ → γ → Option (β × β))
    (geo : β → β → Except String (Option GeoLoc))
    (header : List String) (dataRows : List (List String))
    (hmiss : findCol "pid" (header.map strToLower) = none ∨
      findCol "easting" (header.map strToLower) = none ∨
      findCol "northing" (header.map strToLower) = none) :
    enrich_dataset_with_locations base pf tr geo (header :: dataRows) =
      ⟨none, some [],
        some ("Required columns not found. Available columns: " ++ toString header)⟩ := by
  rcases hp : findCol "pid" (header.map strToLower) with _ | pi <;>
    rcases he : findCol "easting" (header.map strToLower) with _ | ei <;>
    rcases hn : findCol "northing" (header.map strToLower) with _ | ni <;>
    simp_all [enrich_dataset_with_locations]

/-- C1 (witness). -/
theorem c1_missing_columns_abort_witness :
    enrich_dataset_with_locations "t" pfW trW geoW ([["x", "y"], ["1", "2"]]) =
      ⟨none, some [],
        some ("Required columns not found. Available columns: " ++ toString ["x", "y"])⟩ :=
  c1_missing_columns_abort "t" pfW trW geoW ["x", "y"] [["1", "2"]] (Or.inl (by decide))

/-- C2 (counterexample): an input with the valid header
`pid,easting,northing` and the single (too short) data row `["A"]` yields
an output file with only the header line — 1 line, not the claimed
1 header + 1 data row = 2 lines — because indexing the short row raises
`IndexError`, which is not a transform or geocoding failure but still
breaks the row-per-row guarantee. -/
theorem c2_counterexample :
    ((enrich_dataset_with_locations "t" pfW trW geoW
      [["pid", "easting", "northing"], ["A"]]).outFile.getD []).length ≠ 1 + 1 := by
  decide

/-- C2 (amended): for every input file with a valid header in which every
data row has enough fields to index the resolved `pid`/`easting`/
`northing` columns, the output file holds exactly the fixed header row
plus one output row per input data row, in input order, and the output
path is returned — regardless of the transform oracle, the geocoding
oracle, and how many individual rows fail in them. -/
theorem c2_enrich_row_count {γ β : Type} (base : String)
    (pf : String → Option γ) (tr : γ → γ → Option (β × β))
    (geo : β → β → Except String (Option GeoLoc))
    (header : List String) (dataRows : List (List String)) (pi ei ni : Nat)
    (hp : findCol "pid" (header.map strToLower) = some pi)
    (he : findCol "easting" (header.map strToLower) = some ei)
    (hn : findCol "northing" (header.map strToLower) = some ni)
    (hsafe : ∀ r ∈ dataRows, rowSafe pi ei ni r = true) :
    enrich_dataset_with_locations base pf tr geo (header :: dataRows) =
      ⟨some (outputPathOf base),
        some (NEW_HEADER :: dataRows.map (outRowOf pi ei ni pf tr geo)), none⟩ := by
  simp only [enrich_dataset_with_locations, hp, he, hn,
    processRows_of_all_safe pi ei ni pf tr geo dataRows hsafe]
  simp

/-- C2 (witness): a 2-row input, one row geocoding normally and one with
a non-numeric easting, still yields header + 2 rows. -/
theorem c2_enrich_row_count_witness :
    enrich_dataset_with_locations "t" pfW trW geoW
      [["PID", "Easting", "Northing", "x"], ["A1", "4321", "3210", "i"], ["B2", "z", "1", "i"]] =
      ⟨some (outputPathOf "t"),
        some (NEW_HEADER ::
          [["A1", "4321", "3210", "i"], ["B2", "z", "1", "i"]].map (outRowOf 0 1 2 pfW trW geoW)),
        none⟩ :=
  c2_enrich_row_count "t" pfW trW geoW ["PID", "Easting", "Northing", "x"]
    [["A1", "4321", "3210", "i"], ["B2", "z", "1", "i"]] 0 1 2
    (by decide) (by decide) (by decide) (by decide)

end EGMS

namespace EGMS

/-! ## Claims C8 and C10: per-row behaviour of the enrichment loop -/

/-- C8: with a valid header and all rows indexable, a row whose easting or
northing does not parse as a number gets `"Unknown location"` as its
location in the corresponding output row, and every row — including all
subsequent ones — still appears in the output, which is returned. -/
theorem c8_nonnumeric_row_sentinel {γ β : Type} (base : String)
    (pf : String → Option γ) (tr : γ → γ → Option (β × β))
    (geo : β → β → Except String (Option GeoLoc))
    (header : List String) (dataRows : List (List String)) (pi ei ni i : Nat)
    (hp : findCol "pid" (header.map strToLower) = some pi)
    (he : findCol "easting" (header.map strToLower) = some ei)
    (hn : findCol "northing" (header.map strToLower) = some ni)
    (hsafe : ∀ r ∈ dataRows, rowSafe pi ei ni r = true)
    (_hi : i < dataRows.length)
    (hnn : pf ((dataRows.getD i []).getD ei "") = none ∨
      pf ((dataRows.getD i []).getD ni "") = none) :
    enrich_dataset_with_locations base pf tr geo (header :: dataRows) =
      ⟨some (outputPathOf base),
        some (NEW_HEADER :: dataRows.map (outRowOf pi ei ni pf tr geo)), none⟩ ∧
    outRowOf pi ei ni pf tr geo (dataRows.getD i []) =
      [(dataRows.getD i []).getD pi "", (dataRows.getD i []).getD ei "",
        (dataRows.getD i []).getD ni "", "Unknown location"] := by
  constructor
  · simp only [enrich_dataset_with_locations, hp, he, hn,
      processRows_of_all_safe pi ei ni pf tr geo dataRows hsafe]
    simp
  · simp only [outRowOf,
      convert_coordinates_of_parse_fail pf tr _ _ hnn]
    rfl

/-- C8 (witness): the second data row has the non-numeric easting `"z"`;
its output row carries the sentinel and the following row is still
processed. -/
theorem c8_nonnumeric_row_sentinel_witness :
    enrich_dataset_with_locations "t" pfW trW geoW
      ([["pid", "easting", "northing"], ["A", "1", "2"], ["B", "z", "2"], ["C", "3", "4"]]) =
      ⟨some (outputPathOf "t"),
        some (NEW_HEADER ::
          [["A", "1", "2"], ["B", "z", "2"], ["C", "3", "4"]].map (outRowOf 0 1 2 pfW trW geoW)),
        none⟩ ∧
    outRowOf 0 1 2 pfW trW geoW ([["A", "1", "2"], ["B", "z", "2"], ["C", "3", "4"]].getD 1 []) =
      [([["A", "1", "2"], ["B", "z", "2"], ["C", "3", "4"]].getD 1 []).getD 0 "",
        ([["A", "1", "2"], ["B", "z", "2"], ["C", "3", "4"]].getD 1 []).getD 1 "",
        ([["A", "1", "2"], ["B", "z", "2"], ["C", "3", "4"]].getD 1 []).getD 2 "",
        "Unknown location"] :=
  c8_nonnumeric_row_sentinel "t" pfW trW geoW ["pid", "easting", "northing"]
    [["A", "1", "2"], ["B", "z", "2"], ["C", "3", "4"]] 0 1 2 1
    (by decide) (by decide) (by decide) (by decide) (by decide) (Or.inl (by decide))

/-- C10: with a valid header, a data row with too few fields for the
resolved column indices stops the loop at that row through the catch-all
handler: the call returns nothing, and the output file is left holding
the header plus exactly the rows processed before the short one. -/
theorem c10_short_row_aborts {γ β : Type} (base : String)
    (pf : String → Option γ) (tr : γ → γ → Option (β × β))
    (geo : β → β → Except String (Option GeoLoc))
    (header : List String) (pre rest : List (List String)) (bad : List String)
    (pi ei ni : Nat)
    (hp : findCol "pid" (header.map strToLower) = some pi)
    (he : findCol "easting" (header.map strToLower) = some ei)
    (hn : findCol "northing" (header.map strToLower) = some ni)
    (hpre : ∀ r ∈ pre, rowSafe pi ei ni r = true)
    (hbad : rowSafe pi ei ni bad = false) :
    enrich_dataset_with_locations base pf tr geo (header :: (pre ++ bad :: rest)) =
      ⟨none, some (NEW_HEADER :: pre.map (outRowOf pi ei ni pf tr geo)),
        some "Error processing CSV: list index out of range"⟩ := by
  simp only [enrich_dataset_with_locations, hp, he, hn,
    processRows_of_bad_row pi ei ni pf tr geo bad rest hbad pre hpre]
  simp

/-- C10 (witness): the second data row `["B"]` cannot be indexed at
column 1; the file keeps the header and the first row only. -/
theorem c10_short_row_aborts_witness :
    enrich_dataset_with_locations "t" pfW trW geoW
      (["pid", "easting", "northing"] :: ([["A", "1", "2"]] ++ ["B"] :: [])) =
      ⟨none, some (NEW_HEADER :: [["A", "1", "2"]].map (outRowOf 0 1 2 pfW trW geoW)),
        some "Error processing CSV: list index out of range"⟩ :=
  c10_short_row_aborts "t" pfW trW geoW ["pid", "easting", "northing"]
    [["A", "1", "2"]] [] ["B"] 0 1 2
    (by decide) (by decide) (by decide) (by decide) (by decide)

end EGMS

namespace EGMS

/-! ## Claims C5 and C6: the archive fetcher -/

/-- C5: a tile fetch never raises to its caller.  In the model the
`except` at line 92 makes `download_tile` a total function of the network
oracle; in particular, when the HTTP GET raises a network-level exception
(oracle `Except.error msg`), the call evaluates to the failure outcome
`False` with the descriptive status message, and writes nothing — the
exception is not propagated, so a surrounding batch continues. -/
theorem c5_network_failure_is_reported (e n : Int) (d year msg : String) :
    download_tile e n d year (Except.error msg) =
      ⟨false, s!"Error downloading {tileCode e n} {d}: {msg}", []⟩ :=
  rfl

/-- C6: the files written under the download directory by one fetch are:
exactly the first archive entry whose name ends in `.csv` and contains
the expected fragment, when the download succeeded (HTTP 200, readable
archive) and such an entry exists; and no file at all on every failure
path — any outcome whose returned flag is `false` (non-success status,
network error, unreadable archive, or no matching entry) writes
nothing. -/
theorem c6_files_written (e n : Int) (d year : String) :
    (∀ net : NetOracle, (download_tile e n d year net).ok = false →
      (download_tile e n d year net).written = []) ∧
    (∀ (names : List String) (nm : String),
      names.find? (fun x => entryMatches (expectedFragment e n d year) x) = some nm →
      download_tile e n d year (Except.ok (200, Except.ok names)) =
        ⟨true, s!"Extracted {nm}", [nm]⟩) ∧
    (∀ names : List String,
      names.find? (fun x => entryMatches (expectedFragment e n d year) x) = none →
      download_tile e n d year (Except.ok (200, Except.ok names)) =
        ⟨false, s!"No matching CSV found in the downloaded zip for {tileCode e n} {d}", []⟩) := by
  refine ⟨?_, ?_, ?_⟩
  · intro net hok
    rcases net with msg | ⟨code, zipR⟩
    · rfl
    · by_cases hc : code = 200
      · subst hc
        rcases zipR with msg | names
        · rfl
        · rcases hf : names.find? (fun x => entryMatches (expectedFragment e n d year) x)
            with _ | nm
          · simp [download_tile, hf]
          · simp only [download_tile, hf] at hok
            simp at hok
      · simp [download_tile, hc]
  · intro names nm hf
    simp [download_tile, hf]
  · intro names hf
    simp [download_tile, hf]

/-- C6 (witness): a successful fetch of tile `E10N25` whose archive holds
a stray text file plus two matching entries extracts exactly the first
matching one; an archive with no matching entry writes nothing. -/
theorem c6_files_written_witness :
    download_tile 10 25 "E" "2019_2023"
      (Except.ok (200, Except.ok
        ["a.txt", "EGMS_L3_E10N25_100km_E_2019_2023_1.csv",
          "xEGMS_L3_E10N25_100km_E_2019_2023_1.csv"])) =
      ⟨true, "Extracted EGMS_L3_E10N25_100km_E_2019_2023_1.csv",
        ["EGMS_L3_E10N25_100km_E_2019_2023_1.csv"]⟩ ∧
    download_tile 10 25 "E" "2019_2023" (Except.ok (404, Except.ok ["b.csv"])) =
      ⟨false, "Failed to download E10N25 E", []⟩ ∧
    (download_tile 10 25 "E" "2019_2023"
      (Except.ok (200, Except.ok ["a.txt", "b.csv"]))).written = [] :=
  ⟨(c6_files_written 10 25 "E" "2019_2023").2.1
      ["a.txt", "EGMS_L3_E10N25_100km_E_2019_2023_1.csv",
        "xEGMS_L3_E10N25_100km_E_2019_2023_1.csv"]
      "EGMS_L3_E10N25_100km_E_2019_2023_1.csv" (by decide),
    by decide,
    (c6_files_written 10 25 "E" "2019_2023").1 _ (by decide)⟩

/-! ## Claim C4: the batch loop attempts everything and finishes at 1.0 -/

/-- C4: for every download oracle — that is, regardless of which
individual tasks fail — the batch loop passes every task of the declared
grid to `download_tile`, in grid order, aborting on none of them, and the
sequence of emitted progress fractions ends with exactly `1`. -/
theorem c4_batch_never_aborts (choice : String) (min_e max_e min_n max_n : Int)
    (year : String) (net : Int × Int × String → NetOracle) :
    (batchOutcomes choice min_e max_e min_n max_n year net).map Prod.fst =
      batchTasks choice min_e max_e min_n max_n ∧
    (batchProgressList (batchTasks choice min_e max_e min_n max_n).length).getLast? =
      some 1 := by
  constructor
  · simp only [batchOutcomes, List.map_map]
    exact List.map_id _
  · simp [batchProgressList]

/-! ## Claim C7: the location resolver -/

/-- C7: the location resolver is total (the model returns a value for
every oracle outcome).  If either coordinate is undefined it returns the
sentinel `"Unknown location"` having made zero geocoding calls; if both
are defined and the geocoding oracle raises, it returns the sentinel
`"Geocoding error"` instead of propagating, having made its one call. -/
theorem c7_resolver_sentinels {β : Type}
    (geo : β → β → Except String (Option GeoLoc)) (latitude longitude : Option β) :
    ((latitude = none ∨ longitude = none) →
      get_location_name geo latitude longitude = ("Unknown location", 0)) ∧
    (∀ la lo msg, latitude = some la → longitude = some lo →
      geo la lo = Except.error msg →
      get_location_name geo latitude longitude = ("Geocoding error", 1)) := by
  constructor
  · rintro (rfl | rfl)
    · cases longitude <;> rfl
    · cases latitude <;> rfl
  · rintro la lo msg rfl rfl hgeo
    simp [get_location_name, hgeo]

/-- C7 (witness). -/
theorem c7_resolver_sentinels_witness :
    get_location_name geoW none (some 3) = ("Unknown location", 0) ∧
    get_location_name geoErrW (some 1) (some 2) = ("Geocoding error", 1) :=
  ⟨(c7_resolver_sentinels geoW none (some 3)).1 (Or.inl rfl),
    (c7_resolver_sentinels geoErrW (some 1) (some 2)).2 1 2 "timeout" rfl rfl rfl⟩

end EGMS

namespace EGMS

/-! ## Grid enumeration lemmas for claim C3 -/

theorem intRange_length (lo hi : Int) :
    (intRange lo hi).length = (hi + 1 - lo).toNat := by
  simp [intRange]

theorem getElem?_intRange (lo hi : Int) (k : Nat) (hk : k < (hi + 1 - lo).toNat) :
    (intRange lo hi)[k]? = some (lo + k) := by
  simp [intRange, hk]

theorem mem_intRange (lo hi x : Int) : x ∈ intRange lo hi ↔ lo ≤ x ∧ x ≤ hi := by
  simp only [intRange, List.mem_map, List.mem_range]
  constructor
  · rintro ⟨k, hk, rfl⟩
    omega
  · rintro ⟨h1, h2⟩
    exact ⟨(x - lo).toNat, by omega, by omega⟩

theorem intRange_nodup (lo hi : Int) : (intRange lo hi).Nodup := by
  refine List.Nodup.map ?_ (List.nodup_range _)
  intro a b h
  have h' : lo + (a : Int) = lo + (b : Int) := h
  omega

theorem displacementsOf_nodup (choice : String) : (displacementsOf choice).Nodup := by
  unfold displacementsOf
  split <;> simp

theorem flatMap_length_const {α β : Type} (f : α → List β) (m : Nat)
    (hm : ∀ a, (f a).length = m) (l : List α) :
    (l.flatMap f).length = l.length * m := by
  induction l with
  | nil => simp
  | cons x xs ih => simp [List.flatMap_cons, ih, hm, Nat.succ_mul, Nat.add_comm]

theorem flatMap_getElem?_const {α β : Type} (f : α → List β) (m : Nat)
    (hm : ∀ a, (f a).length = m) :
    ∀ (l : List α) (i j : Nat), j < m → ∀ a, l[i]? = some a →
      (l.flatMap f)[i * m + j]? = (f a)[j]? := by
  intro l
  induction l with
  | nil => intro i j _ a ha; simp at ha
  | cons x xs ih =>
    intro i j hj a ha
    cases i with
    | zero =>
      simp only [List.getElem?_cons_zero, Option.some.injEq] at ha
      subst ha
      rw [List.flatMap_cons, Nat.zero_mul, Nat.zero_add,
        List.getElem?_append_left (by rw [hm]; exact hj)]
    | succ i' =>
      simp only [List.getElem?_cons_succ] at ha
      rw [List.flatMap_cons, Nat.succ_mul, Nat.add_comm (i' * m) m, Nat.add_assoc,
        List.getElem?_append_right (by rw [hm]; exact Nat.le_add_right m _)]
      rw [hm]
      simpa using ih i' j hj a ha

theorem mem_batchTasks (choice : String) (min_e max_e min_n max_n e n : Int)
    (d : String) :
    (e, n, d) ∈ batchTasks choice min_e max_e min_n max_n ↔
      (min_e ≤ e ∧ e ≤ max_e) ∧ (min_n ≤ n ∧ n ≤ max_n) ∧
        d ∈ displacementsOf choice := by
  simp only [batchTasks, List.mem_flatMap, List.mem_map, Prod.mk.injEq]
  constructor
  · rintro ⟨e', he', n', hn', d', hd', rfl, rfl, rfl⟩
    exact ⟨(mem_intRange _ _ _).mp he', (mem_intRange _ _ _).mp hn', hd'⟩
  · rintro ⟨he, hn, hd⟩
    exact ⟨e, (mem_intRange _ _ _).mpr he, n, (mem_intRange _ _ _).mpr hn,
      d, hd, rfl, rfl, rfl⟩

theorem batchTasks_nodup (choice : String) (min_e max_e min_n max_n : Int) :
    (batchTasks choice min_e max_e min_n max_n).Nodup := by
  unfold batchTasks
  rw [List.nodup_flatMap]
  constructor
  · intro e _
    rw [List.nodup_flatMap]
    constructor
    · intro n _
      exact (displacementsOf_nodup choice).map
        (fun d d' h => by simpa using congrArg (fun t : Int × Int × String => t.2.2) h)
    · refine (intRange_nodup min_n max_n).imp ?_
      intro n n' hne
      rw [Function.onFun, List.disjoint_left]
      rintro x hx hx'
      simp only [List.mem_map] at hx hx'
      obtain ⟨d1, _, rfl⟩ := hx
      obtain ⟨d2, _, h2⟩ := hx'
      exact hne (by simpa using congrArg (fun t : Int × Int × String => t.2.1) h2.symm)
  · refine (intRange_nodup min_e max_e).imp ?_
    intro e e' hne
    rw [Function.onFun, List.disjoint_left]
    rintro x hx hx'
    simp only [List.mem_flatMap, List.mem_map] at hx hx'
    obtain ⟨n1, _, d1, _, rfl⟩ := hx
    obtain ⟨n2, _, d2, _, h2⟩ := hx'
    exact hne (by simpa using congrArg (fun t : Int × Int × String => t.1) h2.symm)

end EGMS

namespace EGMS

theorem count_eq_one_of_nodup_of_mem {α : Type} [BEq α] [LawfulBEq α]
    {l : List α} {a : α} (hnd : l.Nodup) (ha : a ∈ l) : l.count a = 1 := by
  induction l with
  | nil => simp at ha
  | cons x xs ih =>
    rcases List.mem_cons.mp ha with rfl | ha'
    · have hx : a ∉ xs := (List.nodup_cons.mp hnd).1
      simp [List.count_cons, List.count_eq_zero.mpr hx]
    · have hax : a ≠ x := by
        rintro rfl
        exact (List.nodup_cons.mp hnd).1 ha'
      simp [List.count_cons, ih (List.nodup_cons.mp hnd).2 ha', hax]

/-! ## Claim C3: grid enumeration -/

/-- C3: for a batch region with `min_e ≤ max_e`, `min_n ≤ max_n`, the
batch loop enumerates exactly
`(max_e-min_e+1) * (max_n-min_n+1) * |displacements|` tasks; each
in-range combination `(e, n, d)` is visited exactly once; and the
enumeration is in row-major order — the task at position
`(e-min_e) * (nN * nD) + (n-min_n) * nD + j` (with `nN` the north count
and `nD` the displacement count) is `(e, n, j-th displacement)`, i.e. `e`
varies outermost, `n` inner, displacement innermost. -/
theorem c3_grid_enumeration (choice : String) (min_e max_e min_n max_n : Int)
    (h1 : min_e ≤ max_e) (h2 : min_n ≤ max_n) (e n : Int) (j : Nat)
    (he1 : min_e ≤ e) (he2 : e ≤ max_e) (hn1 : min_n ≤ n) (hn2 : n ≤ max_n)
    (hj : j < (displacementsOf choice).length) :
    (batchTasks choice min_e max_e min_n max_n).length =
      (max_e - min_e + 1).toNat * (max_n - min_n + 1).toNat *
        (displacementsOf choice).length ∧
    (batchTasks choice min_e max_e min_n max_n).count
      (e, n, (displacementsOf choice).getD j "") = 1 ∧
    (batchTasks choice min_e max_e min_n max_n)[(e - min_e).toNat *
        ((max_n - min_n + 1).toNat * (displacementsOf choice).length) +
        (n - min_n).toNat * (displacementsOf choice).length + j]? =
      some (e, n, (displacementsOf choice).getD j "") := by
  set disps := displacementsOf choice with hdisps
  set nD := disps.length with hnD
  set nN := (max_n - min_n + 1).toNat with hnN
  set nE := (max_e - min_e + 1).toNat with hnE
  have hblock : ∀ e' : Int,
      ((intRange min_n max_n).flatMap fun n' => disps.map fun d => (e', n', d)).length =
        nN * nD := by
    intro e'
    rw [flatMap_length_const _ nD (fun a => by rw [List.length_map]), intRange_length]
    congr 1
    omega
  have hd_mem : disps.getD j "" ∈ disps := by
    rw [List.getD_eq_getElem disps "" hj]
    exact List.getElem_mem hj
  refine ⟨?_, ?_, ?_⟩
  · rw [batchTasks, flatMap_length_const _ (nN * nD) hblock, intRange_length,
      Nat.mul_assoc]
    congr 1
    omega
  · refine count_eq_one_of_nodup_of_mem
      (batchTasks_nodup choice min_e max_e min_n max_n) ?_
    exact (mem_batchTasks choice min_e max_e min_n max_n e n _).mpr
      ⟨⟨he1, he2⟩, ⟨hn1, hn2⟩, hd_mem⟩
  · have hiE : (intRange min_e max_e)[(e - min_e).toNat]? = some e := by
      rw [getElem?_intRange min_e max_e _ (by omega)]
      congr 1
      omega
    have hiN : (intRange min_n max_n)[(n - min_n).toNat]? = some n := by
      rw [getElem?_intRange min_n max_n _ (by omega)]
      congr 1
      omega
    have hr : (n - min_n).toNat * nD + j < nN * nD := by
      have h3 : ((n - min_n).toNat + 1) * nD ≤ nN * nD :=
        mul_le_mul_right' (by omega) nD
      calc (n - min_n).toNat * nD + j < (n - min_n).toNat * nD + nD := by omega
        _ = ((n - min_n).toNat + 1) * nD := by ring
        _ ≤ nN * nD := h3
    rw [Nat.add_assoc, batchTasks,
      flatMap_getElem?_const _ (nN * nD) hblock (intRange min_e max_e)
        (e - min_e).toNat _ hr e hiE,
      flatMap_getElem?_const _ nD (fun a => by rw [List.length_map])
        (intRange min_n max_n) (n - min_n).toNat j hj n hiN,
      List.getElem?_map, List.getElem?_eq_getElem hj]
    simp [List.getD_eq_getElem disps "" hj, List.getElem?_eq_getElem hj]

/-- C3 (witness): the 2×2 region `E∈[10,11]`, `N∈[25,26]` with both
displacement types gives 8 tasks; `(11, 25, "U")` appears exactly once,
at row-major position `1*(2*2) + 0*2 + 1 = 5`. -/
theorem c3_grid_enumeration_witness :
    (batchTasks "Both" 10 11 25 26).length =
      ((11 : Int) - 10 + 1).toNat * ((26 : Int) - 25 + 1).toNat *
        (displacementsOf "Both").length ∧
    (batchTasks "Both" 10 11 25 26).count
      (11, 25, (displacementsOf "Both").getD 1 "") = 1 ∧
    (batchTasks "Both" 10 11 25 26)[((11 : Int) - 10).toNat *
        (((26 : Int) - 25 + 1).toNat * (displacementsOf "Both").length) +
        ((25 : Int) - 25).toNat * (displacementsOf "Both").length + 1]? =
      some (11, 25, (displacementsOf "Both").getD 1 "") :=
  c3_grid_enumeration "Both" 10 11 25 26 (by decide) (by decide) 11 25 1
    (by decide) (by decide) (by decide) (by decide) (by decide)

end EGMS

namespace EGMS

/-! ## Trace lemmas for claim C9 -/

theorem callTimes_ge (s : String) :
    ∀ (evs : List Ev) (t : ℚ), (∀ d, Ev.sleep d ∈ evs → 0 ≤ d) →
      ∀ x ∈ callTimes s evs t, t ≤ x := by
  intro evs
  induction evs with
  | nil => intro t _ x hx; simp [callTimes] at hx
  | cons ev rest ih =>
    intro t hpos x hx
    cases ev with
    | call s' =>
      simp only [callTimes] at hx
      by_cases h : s' = s
      · rw [if_pos h] at hx
        rcases List.mem_cons.mp hx with rfl | hx'
        · exact le_refl x
        · exact ih t (fun d hd => hpos d (List.mem_cons_of_mem _ hd)) x hx'
      · rw [if_neg h] at hx
        exact ih t (fun d hd => hpos d (List.mem_cons_of_mem _ hd)) x hx
    | sleep d =>
      simp only [callTimes] at hx
      have h0 : 0 ≤ d := hpos d (List.mem_cons_self _ _)
      have h1 := ih (t + d) (fun d' hd' => hpos d' (List.mem_cons_of_mem _ hd')) x hx
      linarith

theorem sleep_mem_batchEvents {α : Type} (tasks : List α) (d : ℚ)
    (h : Ev.sleep d ∈ batchEvents tasks) : d = DELAY := by
  simp only [batchEvents, List.mem_flatMap, List.mem_cons, List.mem_singleton] at h
  rcases h with ⟨_, _, h | h | h⟩ <;> simp_all

theorem sleep_mem_enrichEvents {γ β : Type} (pidx ei ni : Nat) (pf : String → Option γ)
    (tr : γ → γ → Option (β × β)) (geo : β → β → Except String (Option GeoLoc))
    (rows : List (List String)) (d : ℚ)
    (h : Ev.sleep d ∈ enrichEvents pidx ei ni pf tr geo rows) : d = GEOCODE_DELAY := by
  simp only [enrichEvents, List.mem_flatMap, List.mem_append, List.mem_replicate,
    List.mem_singleton] at h
  rcases h with ⟨_, _, ⟨_, h⟩ | h⟩ <;> simp_all

theorem glc_count_cases {β : Type} (geo : β → β → Except String (Option GeoLoc))
    (la lo : Option β) :
    (get_location_name geo la lo).2 = 0 ∨ (get_location_name geo la lo).2 = 1 := by
  cases la with
  | none => exact Or.inl rfl
  | some a =>
    cases lo with
    | none => exact Or.inl rfl
    | some b =>
      right
      rcases hg : geo a b with msg | v
      · simp [get_location_name, hg]
      · cases v with
        | none => simp [get_location_name, hg]
        | some loc =>
          simp only [get_location_name, hg]
          split <;> rfl

theorem chain'_callTimes_batch {α : Type} (tasks : List α) :
    ∀ t : ℚ, List.Chain' (fun a b => a + DELAY ≤ b)
      (callTimes "download" (batchEvents tasks) t) := by
  induction tasks with
  | nil => intro t; simp [batchEvents, callTimes]
  | cons x xs ih =>
    intro t
    rw [batchEvents, List.flatMap_cons]
    simp only [List.cons_append, List.nil_append, callTimes, if_pos rfl]
    refine List.chain'_cons'.mpr ⟨?_, ih (t + DELAY)⟩
    intro y hy
    exact callTimes_ge "download" (batchEvents xs) (t + DELAY)
      (fun d hd => by rw [sleep_mem_batchEvents xs d hd]; norm_num [DELAY])
      y (List.mem_of_mem_head? hy)

theorem chain'_callTimes_enrich {γ β : Type} (pidx ei ni : Nat) (pf : String → Option γ)
    (tr : γ → γ → Option (β × β)) (geo : β → β → Except String (Option GeoLoc))
    (rows : List (List String)) :
    ∀ t : ℚ, List.Chain' (fun a b => a + GEOCODE_DELAY ≤ b)
      (callTimes "geocode" (enrichEvents pidx ei ni pf tr geo rows) t) := by
  induction rows with
  | nil => intro t; simp [enrichEvents, callTimes]
  | cons row rest ih =>
    intro t
    rw [enrichEvents, List.flatMap_cons]
    rcases glc_count_cases geo
      (convert_coordinates pf tr (row.getD ei "") (row.getD ni "")).1
      (convert_coordinates pf tr (row.getD ei "") (row.getD ni "")).2 with hc | hc <;>
      rw [hc]
    · simp only [List.replicate, List.nil_append, List.cons_append, callTimes]
      exact ih (t + GEOCODE_DELAY)
    · simp only [List.replicate, List.cons_append, List.nil_append, callTimes, if_pos rfl]
      refine List.chain'_cons'.mpr ⟨?_, ih (t + GEOCODE_DELAY)⟩
      intro y hy
      exact callTimes_ge "geocode" (enrichEvents pidx ei ni pf tr geo rest)
        (t + GEOCODE_DELAY)
        (fun d hd => by
          rw [sleep_mem_enrichEvents pidx ei ni pf tr geo rest d hd]
          norm_num [GEOCODE_DELAY])
        y (List.mem_of_mem_head? hy)

theorem chain'_getD_gap (D : ℚ) (l : List ℚ)
    (h : List.Chain' (fun a b => a + D ≤ b) l) :
    ∀ (k i : Nat), i + k < l.length → l.getD i 0 + (k : ℚ) * D ≤ l.getD (i + k) 0 := by
  intro k
  induction k with
  | zero => intro i hi; simp
  | succ k ih =>
    intro i hi
    have h1 := ih i (by omega)
    have h2 : l.getD (i + k) 0 + D ≤ l.getD (i + k + 1) 0 := by
      have hlt : i + k < l.length - 1 := by omega
      have h3 := List.chain'_iff_get.mp h (i + k) hlt
      rw [List.getD_eq_getElem l 0 (by omega), List.getD_eq_getElem l 0 (by omega)]
      simpa only [List.get_eq_getElem] using h3
    have hgoal : l.getD i 0 + ((k : ℚ) + 1) * D ≤ l.getD (i + (k + 1)) 0 := by
      have : i + (k + 1) = i + k + 1 := by omega
      rw [this]
      calc l.getD i 0 + ((k : ℚ) + 1) * D = (l.getD i 0 + (k : ℚ) * D) + D := by ring
        _ ≤ l.getD (i + k) 0 + D := by linarith
        _ ≤ l.getD (i + k + 1) 0 := h2
    have hcast : (((k + 1 : Nat)) : ℚ) = (k : ℚ) + 1 := by push_cast; ring
    rwa [hcast]

end EGMS

namespace EGMS

/-! ## Claim C9: minimum spacing between external calls -/

/-- C9: in the sleep-time model (wall time is bounded below by the summed
sleeps, since `sleep(d)` blocks at least `d` seconds and all other work
takes nonnegative time), any two calls to the archive download service in
a batch trace are at least `DELAY` apart, and more generally the `i`-th
and `j`-th call times differ by at least `(j-i) * DELAY` — so `N`
consecutive calls span at least `(N-1) * DELAY`.  The same holds for the
geocoding calls of an enrichment trace with the (shorter) interval
`GEOCODE_DELAY`. -/
theorem c9_rate_limiting {α γ β : Type} (tasks : List α) (pidx ei ni : Nat)
    (pf : String → Option γ) (tr : γ → γ → Option (β × β))
    (geo : β → β → Except String (Option GeoLoc)) (rows : List (List String))
    (i j i' j' : Nat) (hij : i ≤ j)
    (hj : j < (callTimes "download" (batchEvents tasks) 0).length)
    (hij' : i' ≤ j')
    (hj' : j' < (callTimes "geocode" (enrichEvents pidx ei ni pf tr geo rows) 0).length) :
    GEOCODE_DELAY < DELAY ∧
    (callTimes "download" (batchEvents tasks) 0).getD i 0 +
        ((j - i : Nat) : ℚ) * DELAY ≤
      (callTimes "download" (batchEvents tasks) 0).getD j 0 ∧
    (callTimes "geocode" (enrichEvents pidx ei ni pf tr geo rows) 0).getD i' 0 +
        ((j' - i' : Nat) : ℚ) * GEOCODE_DELAY ≤
      (callTimes "geocode" (enrichEvents pidx ei ni pf tr geo rows) 0).getD j' 0 := by
  refine ⟨by norm_num [GEOCODE_DELAY, DELAY], ?_, ?_⟩
  · have h := chain'_getD_gap DELAY _ (chain'_callTimes_batch tasks 0)
      (j - i) i (by omega)
    have hidx : i + (j - i) = j := by omega
    rwa [hidx] at h
  · have h := chain'_getD_gap GEOCODE_DELAY _
      (chain'_callTimes_enrich pidx ei ni pf tr geo rows 0) (j' - i') i' (by omega)
    have hidx : i' + (j' - i') = j' := by omega
    rwa [hidx] at h

/-- C9 (witness): a 4-task batch (its 1st and 4th call at least
`3 * DELAY` apart) and a 3-row enrichment whose middle row makes no
geocoding call (its two calls still at least `GEOCODE_DELAY` apart). -/
theorem c9_rate_limiting_witness :
    GEOCODE_DELAY < DELAY ∧
    (callTimes "download" (batchEvents (batchTasks "Both" 10 10 25 26)) 0).getD 0 0 +
        ((3 - 0 : Nat) : ℚ) * DELAY ≤
      (callTimes "download" (batchEvents (batchTasks "Both" 10 10 25 26)) 0).getD 3 0 ∧
    (callTimes "geocode" (enrichEvents 0 1 2 pfW trW geoW
        [["A", "1", "2"], ["B", "z", "2"], ["C", "3", "4"]]) 0).getD 0 0 +
        ((1 - 0 : Nat) : ℚ) * GEOCODE_DELAY ≤
      (callTimes "geocode" (enrichEvents 0 1 2 pfW trW geoW
        [["A", "1", "2"], ["B", "z", "2"], ["C", "3", "4"]]) 0).getD 1 0 :=
  c9_rate_limiting (batchTasks "Both" 10 10 25 26) 0 1 2 pfW trW geoW
    [["A", "1", "2"], ["B", "z", "2"], ["C", "3", "4"]] 0 3 0 1
    (by decide) (by decide) (by decide) (by decide)

end EGMS
